import Mathlib

/-!
Verification development for a small quote-serving chat bot (`src/main.py`).

The bot is a thin command dispatcher over a messaging transport: handlers
load a JSON-backed list of quote records from disk, filter or extend it,
and produce a single textual reply.  This file gives a shallow embedding
of the store, the authorization guard and the handlers, and proves the
behavioural properties stated in the specification.

Modelling conventions:
* Python strings are Lean `String`s; the handful of `str` methods the
  source uses (`strip`, `lower`, `join`, `partition`, `rpartition`,
  substring `in`) are defined below on `String.data` character lists.
  `Char.toLower` only lowers ASCII letters, which covers the repository's
  data; Python's `str.lower` agrees with it on ASCII.
* JSON values are the inductive `Json`; Python `dict` access (`d[k]`,
  `d.get(k, default)`) is modelled on `Json.obj` association lists, with
  the exceptions Python would raise surfaced in an `Except PyExc` result.
  Objects produced by `json.load` have unique keys, so first-match lookup
  agrees with Python's dict semantics on every store considered here.
* The backing file is a `FileState`: it can be absent (`open` raises
  `FileNotFoundError`), unreadable (`open`/`read` raises an `OSError`
  that is not `FileNotFoundError`), syntactically malformed (`json.load`
  raises `JSONDecodeError`), or parse to a JSON value.  The standard
  library's `json.dump`/`json.load` pair is trusted: a written value is
  modelled as the value the file content parses back to, so `save_quotes`
  produces `FileState.json` of the serialized array directly.
* `random.choice(seq)` is modelled as indexing by an arbitrary natural
  number modulo the (nonempty) sequence length, so every element is a
  possible outcome and the result is always a member of the sequence.
* The process-wide globals `OWNER_ID` and the caller identity
  `update.effective_user` are passed explicitly as `Option Int` values
  (`none` models Python `None` / an absent user).
-/

/-- Exceptions that can surface from the modelled Python fragments. -/
inductive PyExc where
  | osError : PyExc
  | attributeError : PyExc
  | typeError : PyExc
  | keyError : PyExc
  | indexError : PyExc
  deriving DecidableEq

/-- JSON values, as produced by Python's `json.load`.  Numbers are kept as
integers; no claim depends on numeric values. -/
inductive Json where
  | null : Json
  | bool (b : Bool) : Json
  | num (n : Int) : Json
  | str (s : String) : Json
  | arr (elems : List Json) : Json
  | obj (fields : List (String × Json)) : Json

/-- A single outbound reply, as sent through `update.message.reply_text`:
either plain text or text sent with `parse_mode=ParseMode.MARKDOWN`. -/
inductive Reply where
  | text (s : String) : Reply
  | markdown (s : String) : Reply
  deriving DecidableEq

/-- State of the backing file `quotes.json` as observed by one handler
invocation. -/
inductive FileState where
  | absent : FileState
  | unreadable : FileState
  | malformed : FileState
  | json (v : Json) : FileState

/-- A quote record with string `text` and `author` fields, the shape the
specification's data model prescribes. -/
structure Quote where
  text : String
  author : String

/-- JSON encoding of a quote record, matching the dict literal
`{"text": quote_part, "author": author}` appended by `add_quote`
(braces shown as words here to keep the comment plain). -/
def Quote.toJson (q : Quote) : Json :=
  Json.obj [("text", Json.str q.text), ("author", Json.str q.author)]

/-- The double-quote character, code point 34. -/
def dQuote : Char := Char.ofNat 34

/-- The single-quote character, code point 39. -/
def sQuote : Char := Char.ofNat 39

/-- Python `str.strip()` whitespace set, restricted to ASCII: space, tab,
newline, carriage return, vertical tab (11) and form feed (12). -/
def pyIsSpace (c : Char) : Bool :=
  c == ' ' || c == '\t' || c == '\n' || c == '\r' || c == Char.ofNat 11 || c == Char.ofNat 12

/-- Remove the characters satisfying `p` from both ends of a list. -/
def stripEnds (p : Char → Bool) (l : List Char) : List Char :=
  ((l.dropWhile p).reverse.dropWhile p).reverse

/-- Python `s.strip()`: remove leading and trailing whitespace. -/
def pyStrip (s : String) : String := ⟨stripEnds pyIsSpace s.data⟩

/-- Python `s.strip(c)` for a single-character argument: remove every
leading and every trailing occurrence of `c`. -/
def pyStripChar (c : Char) (s : String) : String :=
  ⟨stripEnds (fun d => d == c) s.data⟩

/-- Python `s.lower()` (ASCII letters; the stored data is ASCII). -/
def pyLower (s : String) : String := ⟨s.data.map Char.toLower⟩

/-- Python `sep.join(parts)`. -/
def joinSep (sep : String) : List String → String
  | [] => ""
  | [s] => s
  | s :: rest => s ++ sep ++ joinSep sep rest

/-- Boolean test that `pat` occurs at the very start of `l`. -/
def isPrefixB : List Char → List Char → Bool
  | [], _ => true
  | _ :: _, [] => false
  | a :: as, b :: bs => a == b && isPrefixB as bs

/-- Boolean test that `pat` occurs somewhere inside `l`; this models the
Python substring operator `pat in s`. -/
def isInfixB (pat : List Char) : List Char → Bool
  | [] => isPrefixB pat []
  | b :: t => isPrefixB pat (b :: t) || isInfixB pat t

/-- Python `pat in s` on strings. -/
def strContains (pat s : String) : Bool := isInfixB pat.data s.data

/-- Index of the first occurrence of `sep` in a list, if any. -/
def firstOccur (sep : List Char) : List Char → Option Nat
  | [] => if isPrefixB sep [] then some 0 else none
  | c :: t =>
    if isPrefixB sep (c :: t) then some 0
    else
      match firstOccur sep t with
      | some i => some (i + 1)
      | none => none

/-- Index of the last occurrence of `sep` in a list, if any. -/
def lastOccur (sep : List Char) : List Char → Option Nat
  | [] => if isPrefixB sep [] then some 0 else none
  | c :: t =>
    match lastOccur sep t with
    | some i => some (i + 1)
    | none => if isPrefixB sep (c :: t) then some 0 else none

/-- Python `s.partition(sep)`: split at the first occurrence of `sep`;
when `sep` does not occur the result is `(s, "", "")`. -/
def pyPartition (s sep : String) : String × String × String :=
  match firstOccur sep.data s.data with
  | none => (s, "", "")
  | some i => (⟨s.data.take i⟩, sep, ⟨s.data.drop (i + sep.data.length)⟩)

/-- Python `s.rpartition(sep)`: split at the last occurrence of `sep`;
when `sep` does not occur the result is `("", "", s)`. -/
def pyRpartition (s sep : String) : String × String × String :=
  match lastOccur sep.data s.data with
  | none => ("", "", s)
  | some i => (⟨s.data.take i⟩, sep, ⟨s.data.drop (i + sep.data.length)⟩)

/-- Python `str(v)` as used inside the reply f-string.  On the string
values that the repository's data model prescribes it is the identity;
containers are rendered in an abbreviated form since no handler property
depends on their rendering. -/
def pyStr : Json → String
  | Json.null => "None"
  | Json.bool true => "True"
  | Json.bool false => "False"
  | Json.num n => toString n
  | Json.str s => s
  | Json.arr _ => "<list>"
  | Json.obj _ => "<dict>"

/-- Python `item.get(key, default)`: on a dict, the value under `key` or
the default; on any other value `.get` does not exist and an
`AttributeError` is raised. -/
def pyGet (item : Json) (key : String) (dflt : Json) : Except PyExc Json :=
  match item with
  | Json.obj kvs => Except.ok ((kvs.lookup key).getD dflt)
  | _ => Except.error PyExc.attributeError

/-- Python `item[key]`: on a dict, the value under `key` (`KeyError` when
missing); subscripting any other stored value raises `TypeError`. -/
def pyGetItem (item : Json) (key : String) : Except PyExc Json :=
  match item with
  | Json.obj kvs =>
    match kvs.lookup key with
    | some v => Except.ok v
    | none => Except.error PyExc.keyError
  | _ => Except.error PyExc.typeError

/-- Python `v.lower()` on a JSON value: defined on strings only,
`AttributeError` otherwise. -/
def pyLowerJson : Json → Except PyExc String
  | Json.str s => Except.ok (pyLower s)
  | _ => Except.error PyExc.attributeError

/-- Python `random.choice(seq)`: an arbitrary element of the sequence,
selected here by an external index `k` taken modulo the length;
`IndexError` on an empty sequence. -/
def pyChoice {α : Type} : List α → Nat → Except PyExc α
  | [], _ => Except.error PyExc.indexError
  | x :: xs, k =>
    Except.ok ((x :: xs).get ⟨k % (x :: xs).length, Nat.mod_lt _ (Nat.succ_pos _)⟩)

/-- Whether `item.get("author", d).lower()` evaluates without an
exception: `item` must be a dict whose `author` field is either missing
or a string. -/
def authorReadable (item : Json) : Bool :=
  match item with
  | Json.obj kvs =>
    match kvs.lookup "author" with
    | none => true
    | some (Json.str _) => true
    | some _ => false
  | _ => false

/-- The author name of a record, with default `d` when the `author` field
is missing (value used only on records passing `authorReadable`). -/
def authorOr (d : String) (item : Json) : String :=
  match item with
  | Json.obj kvs =>
    match kvs.lookup "author" with
    | some (Json.str s) => s
    | _ => d
  | _ => d

/-- Embedding of `load_quotes` (src/main.py lines 24-35): read and parse
the backing file; a missing file or malformed JSON yields the empty list,
a parsed non-array yields the empty list, and a parsed array is returned
as is.  Only `FileNotFoundError` and `json.JSONDecodeError` are caught,
so any other read fault propagates. -/
def load_quotes : FileState → Except PyExc (List Json)
  | FileState.absent => Except.ok []
  | FileState.unreadable => Except.error PyExc.osError
  | FileState.malformed => Except.ok []
  | FileState.json v =>
    match v with
    | Json.arr l => Except.ok l
    | _ => Except.ok []

/-- Embedding of `save_quotes` (src/main.py lines 37-39): overwrite the
backing file with the serialized array; the file afterwards parses back
to exactly that array (`json.dump`/`json.load` are trusted). -/
def save_quotes (quotes : List Json) : FileState :=
  FileState.json (Json.arr quotes)

/-- Outcome of the `owner_only` decorator for one inbound message: either
a denial reply is sent and the wrapped handler is never invoked, or the
wrapped handler is invoked. -/
inductive GuardDecision where
  | reply (msg : String) : GuardDecision
  | callHandler : GuardDecision
  deriving DecidableEq

/-- Embedding of the `owner_only` decorator (src/main.py lines 41-51):
with no owner configured it always denies with the owner-not-configured
message; otherwise it invokes the wrapped handler exactly when the
caller is present and has the owner's id, denying with the
not-authorized message otherwise. -/
def owner_only (ownerId : Option Int) (userId : Option Int) : GuardDecision :=
  match ownerId with
  | none => GuardDecision.reply "Owner not configured on the bot. Contact the admin."
  | some oid =>
    match userId with
    | some uid =>
      if uid = oid then GuardDecision.callHandler
      else GuardDecision.reply "❌ You are not authorized to use this command."
    | none => GuardDecision.reply "❌ You are not authorized to use this command."

/-- Reply of the `start` handler (src/main.py lines 54-58). -/
def start_reply : Reply :=
  Reply.text "⚡ Welcome to the Simple Quote Bot!\n\nUse /help to see available commands."

/-- Reply of the `help_cmd` handler (src/main.py lines 60-68). -/
def help_reply : Reply :=
  Reply.text
    ("/quote - get a random quote\n/quote <author> - get a random quote by author (case-insensitive, partial match)\n/listauthors - list authors available\n/addquote \"quote text\" - author  (owner only)\n\nExample: /quote Lao Tzu\nExample add: /addquote \"Dream big and dare to fail\" - Norman Vaughan")

/-- The markdown reply built from a chosen record (src/main.py lines 84
and 94): the record's `text` and `author` fields wrapped in typographic
quotes with the author line emphasised. -/
def quoteReply (chosen : Json) : Except PyExc Reply :=
  match pyGetItem chosen "text" with
  | Except.error e => Except.error e
  | Except.ok t =>
    match pyGetItem chosen "author" with
    | Except.error e => Except.error e
    | Except.ok a =>
      Except.ok (Reply.markdown ("“" ++ pyStr t ++ "”\n\n— *" ++ pyStr a ++ "*"))

/-- Recursive worker for `_find_by_author`'s list comprehension: for each
record, evaluate `q in item.get("author","").lower()` (the query `q` is
already lowered) and keep the matching records in order. -/
def filterAuthor (q : String) : List Json → Except PyExc (List Json)
  | [] => Except.ok []
  | item :: rest =>
    match pyGet item "author" (Json.str "") with
    | Except.error e => Except.error e
    | Except.ok av =>
      match pyLowerJson av with
      | Except.error e => Except.error e
      | Except.ok s =>
        match filterAuthor q rest with
        | Except.error e => Except.error e
        | Except.ok rest2 =>
          if strContains q s then Except.ok (item :: rest2) else Except.ok rest2

/-- Embedding of `_find_by_author` (src/main.py lines 70-73): lower the
query, then keep the records whose author field contains it. -/
def _find_by_author (author_query : String) (quotes : List Json) : Except PyExc (List Json) :=
  filterAuthor (pyLower author_query) quotes

/-- The author-query string of `quote_cmd` (src/main.py line 88):
the argument tokens joined by single spaces and stripped. -/
def quoteQuery (args : List String) : String := pyStrip (joinSep " " args)

/-- Embedding of `quote_cmd` (src/main.py lines 75-94).  `args` are the
dispatcher-provided argument tokens, `fs` the backing-file state and `k`
the randomness source for `random.choice`. -/
def quote_cmd (args : List String) (fs : FileState) (k : Nat) : Except PyExc Reply :=
  match load_quotes fs with
  | Except.error e => Except.error e
  | Except.ok quotes =>
    if quotes.isEmpty then Except.ok (Reply.text "No quotes available yet.")
    else if args.isEmpty then
      match pyChoice quotes k with
      | Except.error e => Except.error e
      | Except.ok chosen => quoteReply chosen
    else
      match _find_by_author (quoteQuery args) quotes with
      | Except.error e => Except.error e
      | Except.ok found =>
        if found.isEmpty then
          Except.ok (Reply.text ("No quotes found for author matching: " ++ quoteQuery args))
        else
          match pyChoice found k with
          | Except.error e => Except.error e
          | Except.ok chosen => quoteReply chosen

/-- Recursive worker for `list_authors`: the multiset of values
`q.get("author", "Unknown")` over the store.  The subsequent `sorted`
call compares these values, which raises `TypeError` unless they are
strings; the model requires every collected value to be a string
(Python would additionally accept a store whose authors are all of one
non-string orderable type, a case outside every stated property). -/
def collectAuthors : List Json → Except PyExc (List String)
  | [] => Except.ok []
  | item :: rest =>
    match pyGet item "author" (Json.str "Unknown") with
    | Except.error e => Except.error e
    | Except.ok v =>
      match v with
      | Json.str s =>
        match collectAuthors rest with
        | Except.error e => Except.error e
        | Except.ok rest2 => Except.ok (s :: rest2)
      | _ => Except.error PyExc.typeError

/-- The bulleted author list (src/main.py line 102). -/
def bulletList (authors : List String) : String :=
  joinSep "\n" (authors.map (fun a => "- " ++ a))

/-- Embedding of `list_authors` (src/main.py lines 96-103): collect
`q.get("author","Unknown")` over the store into a set, sort it, and
reply with a bulleted list, or a fixed message when the set is empty.
The Python expression `sorted(set)` is the unique sorted duplicate-free
list of the collected values, modelled as `insertionSort` of `dedup`. -/
def list_authors (fs : FileState) : Except PyExc Reply :=
  match load_quotes fs with
  | Except.error e => Except.error e
  | Except.ok quotes =>
    match collectAuthors quotes with
    | Except.error e => Except.error e
    | Except.ok names =>
      if (List.insertionSort (· ≤ ·) names.dedup).isEmpty then
        Except.ok (Reply.text "No authors found in the database.")
      else
        Except.ok (Reply.text
          ("Authors available:\n\n" ++ bulletList (List.insertionSort (· ≤ ·) names.dedup)))

/-- The `add_quote` payload (src/main.py line 111): everything after the
first space of the raw message text, stripped. -/
def addQuotePayload (full : String) : String := pyStrip (pyPartition full " ").2.2

/-- The two parts of a payload split at the last " - " (src/main.py lines
117-119): the quote text is the head, stripped of whitespace, then of
every leading and trailing double quote, then of every leading and
trailing single quote; the author is the stripped tail. -/
def addQuoteParts (payload : String) : String × String :=
  (pyStripChar sQuote (pyStripChar dQuote (pyStrip (pyRpartition payload " - ").1)),
   pyStrip (pyRpartition payload " - ").2.2)

/-- The parse of `add_quote` (src/main.py lines 109-124): `none` exactly
when the handler's try block raises (empty payload, missing " - "
separator, or an empty part after stripping), `some (text, author)`
otherwise. -/
def parseAddQuote (full : String) : Option (String × String) :=
  if addQuotePayload full = "" then none
  else if strContains " - " (addQuotePayload full) = false then none
  else if (addQuoteParts (addQuotePayload full)).1 = "" ∨ (addQuoteParts (addQuotePayload full)).2 = "" then none
  else some (addQuoteParts (addQuotePayload full))

/-- The parse-contract violations named by the specification, as one
boolean: empty payload after the command token, missing " - " separator,
or an empty quote text or author after trimming. -/
def addQuoteViolation (full : String) : Bool :=
  addQuotePayload full == "" || !(strContains " - " (addQuotePayload full)) ||
    (addQuoteParts (addQuotePayload full)).1 == "" || (addQuoteParts (addQuotePayload full)).2 == ""

/-- Embedding of the wrapped `add_quote` handler body (src/main.py lines
105-129): on a parse violation reply with the fixed format hint and
leave the file untouched; otherwise load the store, append the parsed
record, save, and confirm. -/
def add_quote (full : String) (fs : FileState) : Except PyExc (Reply × FileState) :=
  match parseAddQuote full with
  | none => Except.ok (Reply.text "Invalid format. Use:\n/addquote \"quote text\" - author", fs)
  | some (t, a) =>
    match load_quotes fs with
    | Except.error e => Except.error e
    | Except.ok quotes =>
      Except.ok (Reply.text "✅ Quote added successfully.",
        save_quotes (quotes ++ [Json.obj [("text", Json.str t), ("author", Json.str a)]]))

/-- The `add_quote` handler as registered with the dispatcher: the
`owner_only` guard composed around the handler body. -/
def add_quote_guarded (ownerId userId : Option Int) (full : String) (fs : FileState) :
    Except PyExc (Reply × FileState) :=
  match owner_only ownerId userId with
  | GuardDecision.reply msg => Except.ok (Reply.text msg, fs)
  | GuardDecision.callHandler => add_quote full fs

/-- The candidate set named by the specification of author search: the
stored records whose author field (defaulting to the empty string)
contains the query, case-insensitively. -/
def quoteCandidates (query : String) (quotes : List Json) : List Json :=
  quotes.filter (fun item => strContains (pyLower query) (pyLower (authorOr "" item)))

/-- Remove one leading character satisfying `p`, if present. -/
def dropOneIf (p : Char → Bool) : List Char → List Char
  | [] => []
  | c :: t => if p c then t else c :: t

/-- Whether a character is a double or single quote. -/
def isQuoteChar (c : Char) : Bool := c == dQuote || c == sQuote

/-- Modelled from the spec wording for comparison: strip at most ONE
leading and ONE trailing quote character (double or single) from the
quote text.  The source instead strips every leading and trailing
double quote and then every leading and trailing single quote. -/
def stripOneQuote (s : String) : String :=
  ⟨(dropOneIf isQuoteChar (dropOneIf isQuoteChar s.data).reverse).reverse⟩

/-- Modelled from the spec wording for comparison with `parseAddQuote`:
the same parse but with the single-character quote stripping of
`stripOneQuote`. -/
def parseAddQuoteSpec (full : String) : Option (String × String) :=
  if addQuotePayload full = "" then none
  else if strContains " - " (addQuotePayload full) = false then none
  else if stripOneQuote (pyStrip (pyRpartition (addQuotePayload full) " - ").1) = "" ∨
      pyStrip (pyRpartition (addQuotePayload full) " - ").2.2 = "" then none
  else some (stripOneQuote (pyStrip (pyRpartition (addQuotePayload full) " - ").1),
    pyStrip (pyRpartition (addQuotePayload full) " - ").2.2)

/-- Characterization of `isPrefixB`: it decides whether the pattern is an
initial segment of the list. -/
theorem isPrefixB_iff (s : List Char) : ∀ l : List Char, isPrefixB s l = true ↔ ∃ t, l = s ++ t := by
  induction s with
  | nil => intro l; simp [isPrefixB]
  | cons a as ih =>
    intro l
    cases l with
    | nil => simp [isPrefixB]
    | cons b bs =>
      simp only [isPrefixB, Bool.and_eq_true, beq_iff_eq, ih, List.cons_append, List.cons.injEq]
      constructor
      · rintro ⟨rfl, t, rfl⟩; exact ⟨t, rfl, rfl⟩
      · rintro ⟨t, rfl, rfl⟩; exact ⟨rfl, t, rfl⟩

/-- A successful `isInfixB` test exhibits a decomposition of the list
around an occurrence of the pattern. -/
theorem isInfixB_exists (s : List Char) : ∀ l : List Char, isInfixB s l = true → ∃ p t, l = p ++ s ++ t := by
  intro l
  induction l with
  | nil =>
    intro h
    obtain ⟨t, ht⟩ := (isPrefixB_iff s []).mp h
    exact ⟨[], t, by simpa using ht⟩
  | cons c tl ih =>
    intro h
    rcases Bool.or_eq_true _ _ |>.mp h with h1 | h2
    · obtain ⟨t, ht⟩ := (isPrefixB_iff s (c :: tl)).mp h1
      exact ⟨[], t, by simpa using ht⟩
    · obtain ⟨p, t, hpt⟩ := ih h2
      exact ⟨c :: p, t, by simp [hpt]⟩

/-- The last-occurrence search fails exactly when the pattern does not
occur at all. -/
theorem lastOccur_eq_none_iff (sep : List Char) :
    ∀ l : List Char, lastOccur sep l = none ↔ isInfixB sep l = false := by
  intro l
  induction l with
  | nil => cases h : isPrefixB sep [] <;> simp [lastOccur, isInfixB, h]
  | cons c t ih =>
    cases h : lastOccur sep t with
    | some i =>
      have h2 : isInfixB sep t = true := by
        cases h3 : isInfixB sep t with
        | false => rw [ih.mpr h3] at h; exact Option.noConfusion h
        | true => rfl
      simp [lastOccur, h, isInfixB, h2]
    | none =>
      have h2 : isInfixB sep t = false := ih.mp h
      cases hp : isPrefixB sep (c :: t) <;> simp [lastOccur, h, isInfixB, hp, h2]

/-- At the index reported by `lastOccur`, the pattern indeed occurs. -/
theorem lastOccur_drop (sep : List Char) :
    ∀ (l : List Char) (i : Nat), lastOccur sep l = some i → isPrefixB sep (l.drop i) = true := by
  intro l
  induction l with
  | nil =>
    intro i h
    cases hp : isPrefixB sep [] with
    | false => simp [lastOccur, hp] at h
    | true =>
      simp only [lastOccur, hp, if_true, Option.some.injEq] at h
      subst h
      exact hp
  | cons c t ih =>
    intro i h
    cases h1 : lastOccur sep t with
    | some j =>
      simp only [lastOccur, h1, Option.some.injEq] at h
      subst h
      exact ih j h1
    | none =>
      cases hp : isPrefixB sep (c :: t) with
      | false => simp [lastOccur, h1, hp] at h
      | true =>
        simp only [lastOccur, h1, hp, if_true, Option.some.injEq] at h
        subst h
        exact hp

/-- When the pattern occurs nowhere, it occurs at no drop position. -/
theorem lastOccur_none_drop (sep : List Char) (hsep : sep ≠ []) :
    ∀ l : List Char, lastOccur sep l = none → ∀ j : Nat, isPrefixB sep (l.drop j) = false := by
  intro l
  induction l with
  | nil =>
    intro _ j
    rw [List.drop_nil]
    cases sep with
    | nil => exact absurd rfl hsep
    | cons a as => rfl
  | cons c t ih =>
    intro h j
    cases h1 : lastOccur sep t with
    | some i => simp [lastOccur, h1] at h
    | none =>
      cases hp : isPrefixB sep (c :: t) with
      | true => simp [lastOccur, h1, hp] at h
      | false =>
        cases j with
        | zero => exact hp
        | succ j2 => exact ih h1 j2

/-- The index reported by `lastOccur` is the last occurrence: the pattern
occurs at no strictly larger drop position. -/
theorem lastOccur_maximal (sep : List Char) (hsep : sep ≠ []) :
    ∀ (l : List Char) (i : Nat), lastOccur sep l = some i →
      ∀ j : Nat, i < j → isPrefixB sep (l.drop j) = false := by
  intro l
  induction l with
  | nil =>
    intro i h j _
    cases hp : isPrefixB sep [] with
    | false => simp [lastOccur, hp] at h
    | true =>
      exfalso
      cases sep with
      | nil => exact absurd rfl hsep
      | cons a as => exact Bool.noConfusion hp
  | cons c t ih =>
    intro i h j hij
    cases h1 : lastOccur sep t with
    | some i0 =>
      simp only [lastOccur, h1, Option.some.injEq] at h
      subst h
      cases j with
      | zero => omega
      | succ j2 => exact ih i0 h1 j2 (by omega)
    | none =>
      cases hp : isPrefixB sep (c :: t) with
      | false => simp [lastOccur, h1, hp] at h
      | true =>
        simp only [lastOccur, h1, hp, if_true, Option.some.injEq] at h
        subst h
        cases j with
        | zero => omega
        | succ j2 => exact lastOccur_none_drop sep hsep t h1 j2

/-- Correctness of `pyRpartition` when the separator occurs: the input is
recomposed from the head part, the separator and the tail part, and the
separator does not occur in the tail part; the split is therefore at the
LAST occurrence of the separator. -/
theorem pyRpartition_split (s sep : String) (hsep : sep.data ≠ [])
    (hs : strContains sep s = true) :
    s = (pyRpartition s sep).1 ++ sep ++ (pyRpartition s sep).2.2 ∧
      strContains sep ((pyRpartition s sep).2.2) = false := by
  cases hlo : lastOccur sep.data s.data with
  | none =>
    exfalso
    have h2 := (lastOccur_eq_none_iff sep.data s.data).mp hlo
    have hs2 : isInfixB sep.data s.data = true := hs
    rw [hs2] at h2
    exact Bool.noConfusion h2
  | some i =>
    have hpre := lastOccur_drop sep.data s.data i hlo
    obtain ⟨t, ht⟩ := (isPrefixB_iff sep.data (s.data.drop i)).mp hpre
    have ht2 : s.data.drop (i + sep.data.length) = t := by
      rw [← List.drop_drop, ht, List.drop_left]
    have h1 : pyRpartition s sep = (⟨s.data.take i⟩, sep, ⟨s.data.drop (i + sep.data.length)⟩) := by
      simp only [pyRpartition, hlo]
    rw [h1]
    constructor
    · apply String.ext
      show s.data = ((⟨s.data.take i⟩ : String) ++ sep ++ ⟨s.data.drop (i + sep.data.length)⟩).data
      rw [show ((⟨s.data.take i⟩ : String) ++ sep ++ ⟨s.data.drop (i + sep.data.length)⟩).data
          = s.data.take i ++ sep.data ++ s.data.drop (i + sep.data.length) from by simp]
      rw [ht2, List.append_assoc, ← ht, List.take_append_drop]
    · show isInfixB sep.data (s.data.drop (i + sep.data.length)) = false
      cases hc : isInfixB sep.data (s.data.drop (i + sep.data.length)) with
      | false => rfl
      | true =>
        exfalso
        obtain ⟨p, t2, hdecomp⟩ := isInfixB_exists sep.data _ hc
        have hpre2 : isPrefixB sep.data ((s.data.drop (i + sep.data.length)).drop p.length) = true := by
          rw [hdecomp, List.append_assoc, List.drop_left]
          exact (isPrefixB_iff _ _).mpr ⟨t2, rfl⟩
        rw [List.drop_drop] at hpre2
        have hij : i < i + sep.data.length + p.length := by
          have hpos : 0 < sep.data.length := List.length_pos.mpr hsep
          omega
        have hmax := lastOccur_maximal sep.data hsep s.data i hlo _ hij
        rw [hpre2] at hmax
        exact Bool.noConfusion hmax

/-- On a readable record, `item.get("author", d)` returns the string
`authorOr d item` without raising. -/
theorem pyGet_author (item : Json) (d : String) (h : authorReadable item = true) :
    pyGet item "author" (Json.str d) = Except.ok (Json.str (authorOr d item)) := by
  cases item with
  | obj kvs =>
    cases hl : kvs.lookup "author" with
    | none => simp [pyGet, authorOr, hl]
    | some v =>
      cases v with
      | str s => simp [pyGet, authorOr, hl]
      | null => simp [authorReadable, hl] at h
      | bool b => simp [authorReadable, hl] at h
      | num n => simp [authorReadable, hl] at h
      | arr l => simp [authorReadable, hl] at h
      | obj l => simp [authorReadable, hl] at h
  | null => simp [authorReadable] at h
  | bool b => simp [authorReadable] at h
  | num n => simp [authorReadable] at h
  | str s => simp [authorReadable] at h
  | arr l => simp [authorReadable] at h

/-- On a store of readable records, the `_find_by_author` comprehension
raises nothing and returns exactly the records whose lowered author field
contains the (already lowered) query. -/
theorem filterAuthor_ok (q : String) :
    ∀ quotes : List Json, (∀ item ∈ quotes, authorReadable item = true) →
      filterAuthor q quotes =
        Except.ok (quotes.filter (fun item => strContains q (pyLower (authorOr "" item)))) := by
  intro quotes
  induction quotes with
  | nil => intro _; rfl
  | cons x xs ih =>
    intro h
    have hx := h x (List.mem_cons_self x xs)
    have hxs := ih (fun item hm => h item (List.mem_cons_of_mem x hm))
    rw [List.filter_cons]
    simp only [filterAuthor, pyGet_author x "" hx, pyLowerJson, hxs]
    cases hc : strContains q (pyLower (authorOr "" x)) <;> simp [hc]

/-- On a store of readable records, the author-collection set
comprehension of `list_authors` raises nothing and yields each record's
author name, with missing authors defaulted to "Unknown". -/
theorem collectAuthors_ok :
    ∀ quotes : List Json, (∀ item ∈ quotes, authorReadable item = true) →
      collectAuthors quotes = Except.ok (quotes.map (authorOr "Unknown")) := by
  intro quotes
  induction quotes with
  | nil => intro _; rfl
  | cons x xs ih =>
    intro h
    have hx := h x (List.mem_cons_self x xs)
    have hxs := ih (fun item hm => h item (List.mem_cons_of_mem x hm))
    simp only [collectAuthors, pyGet_author x "Unknown" hx, hxs, List.map_cons]

/-- C3: The authorization guard replies with the owner-not-configured
message and skips the handler when no owner id is set; with an owner
configured it invokes the handler exactly for a caller whose identity is
the owner id and otherwise replies with the not-authorized message; the
two denial replies are distinct strings. -/
theorem owner_only_spec (ownerId userId : Option Int) :
    (ownerId = none →
      owner_only ownerId userId =
        GuardDecision.reply "Owner not configured on the bot. Contact the admin.") ∧
    (∀ oid : Int, ownerId = some oid →
      (userId = some oid → owner_only ownerId userId = GuardDecision.callHandler) ∧
      (userId ≠ some oid →
        owner_only ownerId userId =
          GuardDecision.reply "❌ You are not authorized to use this command.")) ∧
    ("Owner not configured on the bot. Contact the admin." : String) ≠
      "❌ You are not authorized to use this command." := by
  refine ⟨?_, ?_, by decide⟩
  · rintro rfl; rfl
  · rintro oid rfl
    constructor
    · rintro rfl
      simp [owner_only]
    · intro hne
      cases userId with
      | none => rfl
      | some uid =>
        have huid : uid ≠ oid := fun h => hne (by rw [h])
        simp [owner_only, huid]

/-- Witness for `owner_only_spec` at concrete inputs: every branch of the
guard contract is exercised. -/
theorem owner_only_spec_witness :
    owner_only none (some 5) =
      GuardDecision.reply "Owner not configured on the bot. Contact the admin." ∧
    owner_only (some 5) (some 5) = GuardDecision.callHandler ∧
    owner_only (some 5) (some 7) =
      GuardDecision.reply "❌ You are not authorized to use this command." :=
  ⟨(owner_only_spec none (some 5)).1 rfl,
   ((owner_only_spec (some 5) (some 5)).2.1 5 rfl).1 rfl,
   ((owner_only_spec (some 5) (some 7)).2.1 5 rfl).2 (by decide)⟩

/-- C9: With an owner configured, a message carrying no caller identity
at all is denied like a non-owner: the guard sends the not-authorized
reply, which is not an invocation of the wrapped handler. -/
theorem owner_only_missing_user (oid : Int) :
    owner_only (some oid) none =
      GuardDecision.reply "❌ You are not authorized to use this command." ∧
    GuardDecision.reply "❌ You are not authorized to use this command." ≠
      GuardDecision.callHandler :=
  ⟨rfl, by decide⟩

/-- C10: When the backing file parses to a JSON array, `load_quotes`
returns exactly that array, performing no per-record validation. -/
theorem load_quotes_no_validation (elems : List Json) :
    load_quotes (FileState.json (Json.arr elems)) = Except.ok elems := rfl

/-- C8: Saving any sequence of quote records and loading it back yields
the same sequence, record order and field values preserved. -/
theorem save_load_roundtrip (qs : List Quote) :
    load_quotes (save_quotes (qs.map Quote.toJson)) = Except.ok (qs.map Quote.toJson) := rfl

/-- C5 counterexample: on an unreadable backing file (an `OSError` other
than `FileNotFoundError`, e.g. a permission error), `load_quotes` lets
the exception escape instead of returning the empty sequence: only
`FileNotFoundError` and `json.JSONDecodeError` are caught. -/
theorem load_quotes_unreadable_counterexample :
    load_quotes FileState.unreadable = Except.error PyExc.osError ∧
      ∀ l : List Json, load_quotes FileState.unreadable ≠ Except.ok l :=
  ⟨rfl, fun _ h => Except.noConfusion h⟩

/-- C5 (amended): for every backing-file state other than an unreadable
file — absent, malformed JSON, or any parsed JSON value — `load_quotes`
returns without an exception, and it returns the empty sequence whenever
the file does not parse to an array. -/
theorem load_quotes_recovery (fs : FileState) (h : fs ≠ FileState.unreadable) :
    (∃ l, load_quotes fs = Except.ok l) ∧
      ((∀ l : List Json, fs ≠ FileState.json (Json.arr l)) → load_quotes fs = Except.ok []) := by
  cases fs with
  | absent => exact ⟨⟨[], rfl⟩, fun _ => rfl⟩
  | unreadable => exact absurd rfl h
  | malformed => exact ⟨⟨[], rfl⟩, fun _ => rfl⟩
  | json v =>
    cases v with
    | arr l => exact ⟨⟨l, rfl⟩, fun hne => absurd rfl (hne l)⟩
    | null => exact ⟨⟨[], rfl⟩, fun _ => rfl⟩
    | bool b => exact ⟨⟨[], rfl⟩, fun _ => rfl⟩
    | num n => exact ⟨⟨[], rfl⟩, fun _ => rfl⟩
    | str s => exact ⟨⟨[], rfl⟩, fun _ => rfl⟩
    | obj kvs => exact ⟨⟨[], rfl⟩, fun _ => rfl⟩

/-- Witness for `load_quotes_recovery`: a file holding a JSON object (not
an array) loads as the empty sequence. -/
theorem load_quotes_recovery_witness :
    load_quotes (FileState.json (Json.obj [])) = Except.ok [] :=
  (load_quotes_recovery (FileState.json (Json.obj []))
      (fun h => FileState.noConfusion h)).2
    (fun _ h => by injection h with h2; exact Json.noConfusion h2)

/-- C1 counterexample: on an empty store, `/quote ZZZ` replies with the
generic "No quotes available yet." message — the handler returns on an
empty store before looking at the arguments — not with the
"No quotes found for author matching" message the claim requires for an
empty candidate set. -/
theorem quote_cmd_empty_store_counterexample :
    quote_cmd ["ZZZ"] (FileState.json (Json.arr [])) 0 =
      Except.ok (Reply.text "No quotes available yet.") ∧
    Reply.text "No quotes available yet." ≠
      Reply.text ("No quotes found for author matching: " ++ quoteQuery ["ZZZ"]) :=
  ⟨rfl, by decide⟩

/-- C1 (amended): with a non-empty argument list on a store of readable
records, an empty store replies "No quotes available yet."; otherwise the
arguments are joined and stripped into one query, `_find_by_author`
returns exactly the records whose author field contains the query
case-insensitively, an empty candidate set replies with the
"No quotes found for author matching" message carrying the literal query,
and a non-empty candidate set yields the reply built from one of its
members. -/
theorem quote_cmd_author_search (args : List String) (quotes : List Json) (k : Nat)
    (hargs : args.isEmpty = false)
    (hwf : ∀ item ∈ quotes, authorReadable item = true) :
    (quotes.isEmpty = true →
      quote_cmd args (FileState.json (Json.arr quotes)) k =
        Except.ok (Reply.text "No quotes available yet.")) ∧
    (quotes.isEmpty = false →
      _find_by_author (quoteQuery args) quotes =
        Except.ok (quoteCandidates (quoteQuery args) quotes) ∧
      ((quoteCandidates (quoteQuery args) quotes).isEmpty = true →
        quote_cmd args (FileState.json (Json.arr quotes)) k =
          Except.ok (Reply.text ("No quotes found for author matching: " ++ quoteQuery args))) ∧
      ((quoteCandidates (quoteQuery args) quotes).isEmpty = false →
        ∃ m ∈ quoteCandidates (quoteQuery args) quotes,
          quote_cmd args (FileState.json (Json.arr quotes)) k = quoteReply m)) := by
  have hfind : _find_by_author (quoteQuery args) quotes =
      Except.ok (quoteCandidates (quoteQuery args) quotes) :=
    filterAuthor_ok (pyLower (quoteQuery args)) quotes hwf
  constructor
  · intro hq
    have hnil : quotes = [] := List.isEmpty_iff.mp hq
    subst hnil
    rfl
  · intro hq
    obtain ⟨x, xs, rfl⟩ := List.exists_cons_of_ne_nil (List.isEmpty_eq_false.mp hq)
    obtain ⟨a, as, rfl⟩ := List.exists_cons_of_ne_nil (List.isEmpty_eq_false.mp hargs)
    refine ⟨hfind, ?_, ?_⟩
    · intro hce
      simp [quote_cmd, load_quotes, hfind, hce]
    · intro hcne
      obtain ⟨c, cs, hc⟩ := List.exists_cons_of_ne_nil (List.isEmpty_eq_false.mp hcne)
      refine ⟨(c :: cs).get ⟨k % (c :: cs).length, Nat.mod_lt _ (Nat.succ_pos _)⟩, ?_, ?_⟩
      · rw [hc]
        exact List.get_mem _ _ _
      · simp [quote_cmd, load_quotes, hfind, hc, pyChoice]

/-- Witness for `quote_cmd_author_search`: the specification's test
vector.  With the two-record store, `/quote Lao` replies from a member of
the candidate set, and `/quote ZZZ` replies with the no-match message
carrying the literal query. -/
theorem quote_cmd_author_search_witness :
    (∃ m ∈ quoteCandidates (quoteQuery ["Lao"])
        [Json.obj [("text", Json.str "T1"), ("author", Json.str "Lao Tzu")],
         Json.obj [("text", Json.str "T2"), ("author", Json.str "Confucius")]],
      quote_cmd ["Lao"]
        (FileState.json (Json.arr
          [Json.obj [("text", Json.str "T1"), ("author", Json.str "Lao Tzu")],
           Json.obj [("text", Json.str "T2"), ("author", Json.str "Confucius")]])) 0 =
        quoteReply m) ∧
    quote_cmd ["ZZZ"]
        (FileState.json (Json.arr
          [Json.obj [("text", Json.str "T1"), ("author", Json.str "Lao Tzu")],
           Json.obj [("text", Json.str "T2"), ("author", Json.str "Confucius")]])) 0 =
      Except.ok (Reply.text "No quotes found for author matching: ZZZ") :=
  ⟨((quote_cmd_author_search ["Lao"]
      [Json.obj [("text", Json.str "T1"), ("author", Json.str "Lao Tzu")],
       Json.obj [("text", Json.str "T2"), ("author", Json.str "Confucius")]] 0
      rfl (by decide)).2 rfl).2.2 (by decide),
   ((quote_cmd_author_search ["ZZZ"]
      [Json.obj [("text", Json.str "T1"), ("author", Json.str "Lao Tzu")],
       Json.obj [("text", Json.str "T2"), ("author", Json.str "Confucius")]] 0
      rfl (by decide)).2 rfl).2.1 (by decide)⟩

/-- A payload that the specification's parse contract rejects makes the
handler's try block raise, so the parse yields `none`. -/
theorem parseAddQuote_eq_none_of_violation (full : String)
    (h : addQuoteViolation full = true) : parseAddQuote full = none := by
  unfold addQuoteViolation at h
  unfold parseAddQuote
  split_ifs with h1 h2 h3
  · rfl
  · rfl
  · rfl
  · exfalso
    simp only [Bool.or_eq_true, beq_iff_eq, Bool.not_eq_true'] at h
    rcases h with ((h | h) | h) | h
    · exact h1 h
    · exact h2 h
    · exact h3 (Or.inl h)
    · exact h3 (Or.inr h)

/-- C2: an `addquote` invocation by the configured owner whose payload
violates the parse contract (empty payload after the command token,
missing " - " separator, or an empty quote text or author after
trimming) replies with the fixed format-hint message and leaves the
backing file exactly as it was: nothing is appended and nothing is
written. -/
theorem add_quote_invalid_format (oid : Int) (full : String) (fs : FileState)
    (h : addQuoteViolation full = true) :
    add_quote_guarded (some oid) (some oid) full fs =
      Except.ok (Reply.text "Invalid format. Use:\n/addquote \"quote text\" - author", fs) := by
  have hp := parseAddQuote_eq_none_of_violation full h
  simp [add_quote_guarded, owner_only, add_quote, hp]

/-- Witness for `add_quote_invalid_format`: the specification's test
vector, a payload with no " - " separator. -/
theorem add_quote_invalid_format_witness :
    add_quote_guarded (some 1) (some 1) "/addquote NoSeparatorHere"
        (FileState.json (Json.arr [Json.obj [("text", Json.str "T0"), ("author", Json.str "A0")]])) =
      Except.ok (Reply.text "Invalid format. Use:\n/addquote \"quote text\" - author",
        FileState.json (Json.arr [Json.obj [("text", Json.str "T0"), ("author", Json.str "A0")]])) :=
  add_quote_invalid_format 1 "/addquote NoSeparatorHere"
    (FileState.json (Json.arr [Json.obj [("text", Json.str "T0"), ("author", Json.str "A0")]]))
    (by decide)

/-- C6: an `addquote` invocation by the configured owner with a
well-formed payload saves exactly the freshly loaded store with the one
parsed record appended at the end — earlier records unchanged in order
and content — and replies with the success confirmation. -/
theorem add_quote_success (oid : Int) (full t a : String) (fs : FileState) (quotes : List Json)
    (hp : parseAddQuote full = some (t, a))
    (hl : load_quotes fs = Except.ok quotes) :
    add_quote_guarded (some oid) (some oid) full fs =
      Except.ok (Reply.text "✅ Quote added successfully.",
        save_quotes (quotes ++ [Json.obj [("text", Json.str t), ("author", Json.str a)]])) := by
  simp [add_quote_guarded, owner_only, add_quote, hp, hl]

/-- Witness for `add_quote_success`: the specification's test vector
appends the Jane Doe record behind an existing record. -/
theorem add_quote_success_witness :
    add_quote_guarded (some 42) (some 42) "/addquote \"Hello world\" - Jane Doe"
        (FileState.json (Json.arr [Json.obj [("text", Json.str "T0"), ("author", Json.str "A0")]])) =
      Except.ok (Reply.text "✅ Quote added successfully.",
        save_quotes ([Json.obj [("text", Json.str "T0"), ("author", Json.str "A0")]] ++
          [Json.obj [("text", Json.str "Hello world"), ("author", Json.str "Jane Doe")]])) :=
  add_quote_success 42 "/addquote \"Hello world\" - Jane Doe" "Hello world" "Jane Doe"
    (FileState.json (Json.arr [Json.obj [("text", Json.str "T0"), ("author", Json.str "A0")]]))
    [Json.obj [("text", Json.str "T0"), ("author", Json.str "A0")]] (by decide) rfl

/-- C4 counterexample: the source strips EVERY leading and trailing quote
character (first all double quotes, then all single quotes), not a single
one as the claim states.  On the payload with a doubly quoted text the
code yields the fully stripped text while the claim's single-character
stripping would leave one quote layer in place. -/
theorem add_quote_strip_counterexample :
    parseAddQuote "/addquote \"\"A\"\" - B" = some ("A", "B") ∧
    parseAddQuoteSpec "/addquote \"\"A\"\" - B" = some ("\"A\"", "B") ∧
    ("A" : String) ≠ "\"A\"" :=
  ⟨by decide, by decide, by decide⟩

/-- C4 (amended): the payload is split at the LAST occurrence of " - " —
when the separator occurs, the payload is the head part, the separator
and the tail part, and the separator does not occur in the tail part;
the quote text is the head after trimming whitespace and stripping every
leading and trailing double quote and then every leading and trailing
single quote, the author is the trimmed tail, and the parse succeeds
exactly when the payload is non-empty, contains the separator, and both
parts are non-empty. -/
theorem add_quote_parse_split (full : String) :
    (strContains " - " (addQuotePayload full) = true →
      addQuotePayload full =
        (pyRpartition (addQuotePayload full) " - ").1 ++ " - " ++
          (pyRpartition (addQuotePayload full) " - ").2.2 ∧
      strContains " - " ((pyRpartition (addQuotePayload full) " - ").2.2) = false) ∧
    (addQuoteParts (addQuotePayload full)).1 =
      pyStripChar sQuote (pyStripChar dQuote (pyStrip (pyRpartition (addQuotePayload full) " - ").1)) ∧
    (addQuoteParts (addQuotePayload full)).2 =
      pyStrip ((pyRpartition (addQuotePayload full) " - ").2.2) ∧
    parseAddQuote full =
      (if addQuotePayload full ≠ "" ∧ strContains " - " (addQuotePayload full) = true ∧
          (addQuoteParts (addQuotePayload full)).1 ≠ "" ∧
          (addQuoteParts (addQuotePayload full)).2 ≠ ""
        then some (addQuoteParts (addQuotePayload full)) else none) := by
  refine ⟨fun hs => pyRpartition_split (addQuotePayload full) " - " (by decide) hs, rfl, rfl, ?_⟩
  unfold parseAddQuote
  by_cases h1 : addQuotePayload full = ""
  · simp [h1]
  · by_cases h2 : strContains " - " (addQuotePayload full) = false
    · simp [h1, h2]
    · have h2' : strContains " - " (addQuotePayload full) = true := by
        cases hc : strContains " - " (addQuotePayload full) with
        | false => exact absurd hc h2
        | true => rfl
      by_cases h3 : (addQuoteParts (addQuotePayload full)).1 = "" ∨
          (addQuoteParts (addQuotePayload full)).2 = ""
      · rcases h3 with ha | hb
        · simp [h1, h2', ha]
        · simp [h1, h2', hb]
      · push_neg at h3
        simp [h1, h2', h3.1, h3.2]

/-- Witness for `add_quote_parse_split`: a payload with two occurrences
of the separator splits at the last one, the tail part is separator-free,
and the parse succeeds with the corresponding parts. -/
theorem add_quote_parse_split_witness :
    (addQuotePayload "/addquote a - b - c" =
        (pyRpartition (addQuotePayload "/addquote a - b - c") " - ").1 ++ " - " ++
          (pyRpartition (addQuotePayload "/addquote a - b - c") " - ").2.2 ∧
      strContains " - " ((pyRpartition (addQuotePayload "/addquote a - b - c") " - ").2.2) = false) ∧
    parseAddQuote "/addquote a - b - c" = some ("a - b", "c") :=
  ⟨(add_quote_parse_split "/addquote a - b - c").1 (by decide),
   by rw [(add_quote_parse_split "/addquote a - b - c").2.2.2]; decide⟩

/-- C7: on a store of readable records, `listauthors` replies with the
set of distinct author names (a record with no author field contributing
"Unknown"), with no duplicates and sorted, rendered as a bulleted list —
or with "No authors found in the database." when the set is empty. -/
theorem list_authors_sorted (quotes : List Json)
    (hwf : ∀ item ∈ quotes, authorReadable item = true) :
    ∃ authors : List String,
      List.Sorted (· ≤ ·) authors ∧ authors.Nodup ∧
      (∀ s : String, s ∈ authors ↔ s ∈ quotes.map (authorOr "Unknown")) ∧
      list_authors (FileState.json (Json.arr quotes)) =
        Except.ok (if authors.isEmpty then Reply.text "No authors found in the database."
          else Reply.text ("Authors available:\n\n" ++ bulletList authors)) := by
  refine ⟨List.insertionSort (· ≤ ·) (quotes.map (authorOr "Unknown")).dedup, ?_, ?_, ?_, ?_⟩
  · exact List.sorted_insertionSort _ _
  · exact (List.perm_insertionSort _ _).nodup_iff.mpr (List.nodup_dedup _)
  · intro s
    rw [(List.perm_insertionSort _ _).mem_iff, List.mem_dedup]
  · simp only [list_authors, load_quotes, collectAuthors_ok quotes hwf]
    cases h : (List.insertionSort (· ≤ ·) (quotes.map (authorOr "Unknown")).dedup).isEmpty <;>
      simp [h]

/-- Witness for `list_authors_sorted`: the specification's test vector,
a store with authors B, A, A. -/
theorem list_authors_sorted_witness :
    ∃ authors : List String,
      List.Sorted (· ≤ ·) authors ∧ authors.Nodup ∧
      (∀ s : String, s ∈ authors ↔
        s ∈ ([Json.obj [("author", Json.str "B")], Json.obj [("author", Json.str "A")],
              Json.obj [("author", Json.str "A")]] : List Json).map (authorOr "Unknown")) ∧
      list_authors (FileState.json (Json.arr
          [Json.obj [("author", Json.str "B")], Json.obj [("author", Json.str "A")],
           Json.obj [("author", Json.str "A")]])) =
        Except.ok (if authors.isEmpty then Reply.text "No authors found in the database."
          else Reply.text ("Authors available:\n\n" ++ bulletList authors)) :=
  list_authors_sorted
    [Json.obj [("author", Json.str "B")], Json.obj [("author", Json.str "A")],
     Json.obj [("author", Json.str "A")]] (by decide)
